import Mathlib

/-!
Shallow embedding of `src/tile_generator.py` (class `WSIHandler`):
the grid tiler (`get_relevant_tiles`), the label classifier
(`check_for_label`) and the patch-subdivision loop of `extract_patches`.

Conventions: pixel values are naturals (`0` means background), masks are
functions from row/column indices to pixel values, rational numbers stand
in for Python floats (all quantities involved are exact ratios of machine
integers), and Python exceptions are modelled with `Except`.
-/

deriving instance DecidableEq for Except

namespace WSI

/-! ### Label classifier (`WSIHandler.check_for_label`, lines 175-190) -/

/-- Runtime errors the interpreter raises while the classifier runs
(subscripting a float raises `TypeError`). -/
inductive PyErr where
  | typeError
deriving DecidableEq, Repr

/-- One labelling rule: a comparison-operator string and a threshold,
as stored in `label_dict[label]`. -/
structure LabelRule where
  type : String
  threshold : ℚ
deriving DecidableEq, Repr

/-- Number of nonzero pixels of an `h × w` boolean mask
(`np.count_nonzero` on the rasterized annotation mask). -/
def countNonzeroMask (mask : ℕ → ℕ → Bool) (h w : ℕ) : ℕ :=
  ((List.range h).map (fun r => ((List.range w).filter (fun c => mask r c)).length)).sum

/-- `label_percentage = np.count_nonzero(annotation_mask) / annotation_mask.size`. -/
def maskFraction (mask : ℕ → ℕ → Bool) (h w : ℕ) : ℚ :=
  (countNonzeroMask mask h w : ℚ) / (h * w)

/-- The rule-iteration loop of `WSIHandler.check_for_label` over the entries
of `label_dict` (insertion order), given `p = label_percentage`.  The `"=="`
branch tests `threshold == p`, the `">="` branch tests `threshold >= p`
(threshold is the left operand), and the `"<="` branch evaluates
`label_percentage[label]["threshold"]`, which subscripts a float and hence
raises `TypeError` as soon as the branch is reached.  Any other operator
string matches no branch and the loop moves on to the next rule; an
exhausted loop returns `None`. -/
def checkRules : List (String × LabelRule) → ℚ → Except PyErr (Option String)
  | [], _ => .ok none
  | (label, rule) :: rest, p =>
    if rule.type = "==" then
      (if rule.threshold = p then .ok (some label) else checkRules rest p)
    else if rule.type = ">=" then
      (if rule.threshold ≥ p then .ok (some label) else checkRules rest p)
    else if rule.type = "<=" then
      .error .typeError
    else
      checkRules rest p

/-- `WSIHandler.check_for_label`: compute the annotated-pixel fraction of the
patch mask, then iterate the rules. -/
def check_for_label (label_dict : List (String × LabelRule)) (mask : ℕ → ℕ → Bool)
    (h w : ℕ) : Except PyErr (Option String) :=
  checkRules label_dict (maskFraction mask h w)

/-! ### Grid tiler (`WSIHandler.get_relevant_tiles`, lines 127-157) -/

/-- Output record of the grid tiler:
`{"x": col*tile_size, "y": row*tile_size, "size": tile_size, "level": level}`. -/
structure TileDescriptor where
  x : ℕ
  y : ℕ
  size : ℕ
  level : ℕ
deriving DecidableEq, Repr

/-- An RGB pixel value. -/
abbrev RGB := ℕ × ℕ × ℕ

/-- `cv2.cvtColor(tissue_mask, cv2.COLOR_GRAY2RGB)`: a fresh 3-channel image
whose channels all replicate the grayscale value. -/
def cvtGray2RGB (mask : ℕ → ℕ → ℕ) : ℕ → ℕ → RGB :=
  fun r c => (mask r c, mask r c, mask r c)

/-- Whether pixel `(r, c)` (row, column) lies on the thickness-1 border of the
axis-aligned rectangle with corners `(x1, y1)` and `(x2, y2)` (both
inclusive, `x` = column, `y` = row), as drawn by `cv2.rectangle`. -/
def onRectBorder (x1 y1 x2 y2 r c : ℕ) : Bool :=
  ((c == x1 || c == x2) && decide (y1 ≤ r) && decide (r ≤ y2)) ||
    ((r == y1 || r == y2) && decide (x1 ≤ c) && decide (c ≤ x2))

/-- `cv2.rectangle(img, (x1,y1), (x2,y2), (255,0,0), 1)` on an `h × w` image:
border pixels inside the image bounds become pure red `(255,0,0)`; drawing is
clipped at the image boundary.  The same (mutated) image is returned. -/
def drawRectangle (img : ℕ → ℕ → RGB) (h w x1 y1 x2 y2 : ℕ) : ℕ → ℕ → RGB :=
  fun r c =>
    if r < h ∧ c < w ∧ onRectBorder x1 y1 x2 y2 r c then (255, 0, 0) else img r c

/-- Number of nonzero entries of the grayscale cell
`tissue_mask[row*T : row*T+T, col*T : col*T+T]` (its `size` is `T*T`). -/
def countNonzeroGrayCell (mask : ℕ → ℕ → ℕ) (T row col : ℕ) : ℕ :=
  ((List.range T).map
    (fun i => ((List.range T).filter (fun j => mask (row * T + i) (col * T + j) != 0)).length)).sum

/-- Number of nonzero scalar entries contributed by one RGB pixel. -/
def nzRGB (p : RGB) : ℕ :=
  (if p.1 = 0 then 0 else 1) + (if p.2.1 = 0 then 0 else 1) + (if p.2.2 = 0 then 0 else 1)

/-- Number of nonzero scalar entries of the 3-channel cell
`img[row*T : row*T+T, col*T : col*T+T]` (its `size` is `T*T*3`). -/
def countNonzeroRGBCell (img : ℕ → ℕ → RGB) (T row col : ℕ) : ℕ :=
  ((List.range T).map
    (fun i => ((List.range T).map (fun j => nzRGB (img (row * T + i) (col * T + j)))).sum)).sum

/-- Loop state of `get_relevant_tiles`: the accepted tiles so far (the dict
keyed by the dense counter `tile_nb`), the `colored` image (mutated in place
by every accepted tile's `cv2.rectangle` call), and whether the statement
`tissue_mask = cv2.rectangle(colored, ...)` has already executed, i.e.
whether the name `tissue_mask` has been rebound to the `colored` image. -/
structure TilerState where
  tiles : List TileDescriptor
  colored : ℕ → ℕ → RGB
  rebound : Bool

/-- `tissue_coverage = np.count_nonzero(tile) / tile.size` for the cell at
`(row, col)`: read from the original grayscale mask while `tissue_mask` still
names the input array, and from the 3-channel `colored` image (rectangles
included) once `tissue_mask` has been rebound to it. -/
def cellCoverage (mask : ℕ → ℕ → ℕ) (T : ℕ) (st : TilerState) (row col : ℕ) : ℚ :=
  if st.rebound then (countNonzeroRGBCell st.colored T row col : ℚ) / (T * T * 3)
  else (countNonzeroGrayCell mask T row col : ℚ) / (T * T)

/-- One iteration of the doubly nested loop of `get_relevant_tiles`: if
`tissue_coverage >= min_coverage`, record the tile descriptor under the next
dense index, draw its rectangle on `colored`, and rebind `tissue_mask`. -/
def tilerStep (mask : ℕ → ℕ → ℕ) (h w T : ℕ) (m : ℚ) (level : ℕ)
    (st : TilerState) (row col : ℕ) : TilerState :=
  if m ≤ cellCoverage mask T st row col then
    { tiles := st.tiles ++ [⟨col * T, row * T, T, level⟩]
      colored := drawRectangle st.colored h w (col * T) (row * T) (col * T + T) (row * T + T)
      rebound := true }
  else st

/-- `for col in range(cols)` (inner loop), counted down by fuel. -/
def tilerColLoop (mask : ℕ → ℕ → ℕ) (h w T : ℕ) (m : ℚ) (level row : ℕ) :
    ℕ → ℕ → TilerState → TilerState
  | 0, _, st => st
  | fuel + 1, col, st =>
    tilerColLoop mask h w T m level row fuel (col + 1) (tilerStep mask h w T m level st row col)

/-- `for row in range(rows)` (outer loop), counted down by fuel. -/
def tilerRowLoop (mask : ℕ → ℕ → ℕ) (h w T : ℕ) (m : ℚ) (level cols : ℕ) :
    ℕ → ℕ → TilerState → TilerState
  | 0, _, st => st
  | fuel + 1, row, st =>
    tilerRowLoop mask h w T m level cols fuel (row + 1)
      (tilerColLoop mask h w T m level row cols 0 st)

/-- `WSIHandler.get_relevant_tiles` on an `h × w` grayscale tissue mask:
`rows, cols = divmod`-quotients of the shape by `tile_size` (trailing partial
cells dropped), scan cells in row-major order, keep those whose coverage
reaches `min_coverage`.  Returns the accepted descriptors in dense-index
order. -/
def get_relevant_tiles (mask : ℕ → ℕ → ℕ) (h w T : ℕ) (m : ℚ) (level : ℕ) :
    List TileDescriptor :=
  (tilerRowLoop mask h w T m level (w / T) (h / T) 0 ⟨[], cvtGray2RGB mask, false⟩).tiles

/-- Modelled from the spec (§4.2), for comparison with `get_relevant_tiles`:
every cell's coverage is computed from the original input mask; the
diagnostic drawing has no effect on the result. -/
def get_relevant_tiles_intended (mask : ℕ → ℕ → ℕ) (h w T : ℕ) (m : ℚ) (level : ℕ) :
    List TileDescriptor :=
  (List.range (h / T)).flatMap (fun row =>
    (List.range (w / T)).filterMap (fun col =>
      if m ≤ (countNonzeroGrayCell mask T row col : ℚ) / (T * T) then
        some ⟨col * T, row * T, T, level⟩
      else none))

/-! ### Patch subdivision (`WSIHandler.extract_patches`, lines 192-279) -/

/-- `px_overlap = int(patch_size * overlap)`: truncation of a non-negative
float product to an integer. -/
def pxOverlap (P : ℕ) (o : ℚ) : ℕ :=
  (⌊(P : ℚ) * o⌋).toNat

/-- `patch_size - px_overlap`, the grid step (a plain signed integer in
Python). -/
def stepSize (P : ℕ) (o : ℚ) : ℤ :=
  (P : ℤ) - (pxOverlap P o : ℤ)

/-- `rows = int(np.ceil((tile_size + overlap) / (patch_size - px_overlap)))`
(line 212; `cols` on line 213 is the same expression).  Note the numerator
adds the overlap *fraction* to the tile size. -/
def rowsCount (S P : ℕ) (o : ℚ) : ℕ :=
  (⌈((S : ℚ) + o) / ((stepSize P o : ℤ) : ℚ)⌉).toNat

/-- Modelled from the spec (§4.4), for comparison with `rowsCount`:
"The number of steps per axis is `ceil(S / step)`". -/
def specStepsPerAxis (S P : ℕ) (o : ℚ) : ℕ :=
  (⌈(S : ℚ) / ((stepSize P o : ℤ) : ℚ)⌉).toNat

/-- Inner `for col in range(cols)` loop of `extract_patches` for a fixed
`row`: compute the candidate coordinates `col*step` and `row*step`, clamp
each axis to `S - P` (setting its stop flag) when candidate plus `P` reaches
past-or-at the tile size, emit the patch position, and break on `stop_x`.
Returns the emitted positions together with the final `stop_y` flag. -/
def colLoop (S P step : ℤ) (row : ℕ) : ℕ → ℕ → Bool → List (ℤ × ℤ) × Bool
  | 0, _, stopY => ([], stopY)
  | fuel + 1, col, stopY =>
    let candX : ℤ := (col : ℤ) * step
    let candY : ℤ := (row : ℤ) * step
    let stopY2 : Bool := stopY || decide (S ≤ candY + P)
    let patchY : ℤ := if S ≤ candY + P then S - P else candY
    let stopX : Bool := decide (S ≤ candX + P)
    let patchX : ℤ := if S ≤ candX + P then S - P else candX
    if stopX then ([(patchX, patchY)], stopY2)
    else ((patchX, patchY) :: (colLoop S P step row fuel (col + 1) stopY2).1,
          (colLoop S P step row fuel (col + 1) stopY2).2)

/-- Outer `for row in range(rows)` loop of `extract_patches`: run the column
loop (with `stop_x`, and `stop_y` entering as `False` on the first row and
propagated thereafter — it can only have been left `False` when a next row
runs), then break when `stop_y` was set. -/
def rowLoop (S P step : ℤ) (cols : ℕ) : ℕ → ℕ → List (ℤ × ℤ)
  | 0, _ => []
  | fuel + 1, row =>
    (colLoop S P step row cols 0 false).1 ++
      (if (colLoop S P step row cols 0 false).2 then []
       else rowLoop S P step cols fuel (row + 1))

/-- The `(patch_x, patch_y)` positions processed by `extract_patches` for one
tile of full-resolution size `S`, patch size `P` and overlap fraction `o`, in
processing order. -/
def patchPositions (S P : ℕ) (o : ℚ) : List (ℤ × ℤ) :=
  rowLoop (S : ℤ) (P : ℤ) (stepSize P o) (rowsCount S P o) (rowsCount S P o) 0

/-- The per-axis walk realized by the nested loops: candidates `i*step`
until the first one with `candidate + P ≥ S`, which is emitted clamped to
`S - P` and ends the walk. -/
def axisGo (S P step : ℤ) : ℕ → ℕ → List ℤ
  | 0, _ => []
  | fuel + 1, i =>
    let cand : ℤ := (i : ℤ) * step
    if S ≤ cand + P then [S - P] else cand :: axisGo S P step fuel (i + 1)

/-- Length of the slice `a:b` of a numpy axis of extent `n`, for the
non-negative bounds used by the patch extraction
(`tile[patch_y : patch_y + patch_size, patch_x : patch_x + patch_size]`). -/
def npSliceLen (n a b : ℤ) : ℤ :=
  max 0 (min b n - max a 0)

/-! ### Coordinate scaling (`WSIHandler.extract_patches`, lines 199-207) -/

/-- `scaling_factor = int(self.slide.level_downsamples[level])`: the
downsample factor (a float `≥ 1` for a real pyramid) truncated to an
integer. -/
def truncFactor (d : ℚ) : ℕ :=
  (⌊d⌋).toNat

/-- Lines 205-207: `tile_x = x * scaling_factor`, `tile_y = y * scaling_factor`,
`tile_size = size * scaling_factor`. -/
def scaleTile (t : TileDescriptor) (f : ℕ) : ℕ × ℕ × ℕ :=
  (t.x * f, t.y * f, t.size * f)

/-- Whether the coded comparison of one rule holds for fraction `p`
(`"=="` tests `threshold == p`, `">="` tests `threshold >= p`; any other
operator never matches — `"<="` raises before it could). -/
def ruleMatches (r : LabelRule) (p : ℚ) : Bool :=
  if r.type = "==" then decide (r.threshold = p)
  else if r.type = ">=" then decide (r.threshold ≥ p)
  else false

/-- A 2 × 4 test mask whose pixel column 2 is zero and all other pixels are
255: cell (0,0) is fully covered, cell (0,1) is exactly half covered. -/
def bugMask : ℕ → ℕ → ℕ :=
  fun _ c => if c = 2 then 0 else 255

/-! ### Lemmas about the patch subdivision loop -/

theorem toNat_eq_of_eq_cast (z : ℤ) (n : ℕ) (h : z = (n : ℤ)) : z.toNat = n := by omega

theorem flatMap_map_nil {α β γ : Type} (l : List α) (g : β → α → γ) :
    (l.flatMap fun y => List.map (fun x => g x y) ([] : List β)) = [] := by
  induction l with
  | nil => rfl
  | cons hd tl ih => simp [List.flatMap_cons, ih]

/-- The inner loop pairs the x-axis walk with the (clamped) y-coordinate of
its row and reports whether the row's clamp condition fired. -/
theorem colLoop_eq_axisGo (S P step : ℤ) (row : ℕ) :
    ∀ (fuel col : ℕ) (b : Bool),
      colLoop S P step row fuel col b
        = ((axisGo S P step fuel col).map
            (fun x => (x, if S ≤ (row : ℤ) * step + P then S - P else (row : ℤ) * step)),
           if fuel = 0 then b else b || decide (S ≤ (row : ℤ) * step + P)) := by
  intro fuel
  induction fuel with
  | zero => intro col b; simp [colLoop, axisGo]
  | succ n ih =>
    intro col b
    by_cases hx : S ≤ (col : ℤ) * step + P
    · simp [colLoop, axisGo, hx]
    · simp only [colLoop, axisGo, hx, if_false, decide_False, Bool.false_eq_true]
      rw [ih (col + 1) (b || decide (S ≤ (row : ℤ) * step + P))]
      simp only [List.map_cons, Prod.mk.injEq]
      refine ⟨by simp, ?_⟩
      cases n with
      | zero => simp
      | succ m =>
        simp only [if_neg (Nat.succ_ne_zero m), if_neg (Nat.succ_ne_zero (m + 1))]
        cases b <;> simp

theorem rowLoop_zero_cols (S P step : ℤ) :
    ∀ (fuel row : ℕ), rowLoop S P step 0 fuel row = [] := by
  intro fuel
  induction fuel with
  | zero => intro row; rfl
  | succ n ih => intro row; simp [rowLoop, colLoop, ih]

/-- The nested loop produces exactly the product of the two axis walks, in
row-major order. -/
theorem rowLoop_eq_axisGo (S P step : ℤ) (cols : ℕ) :
    ∀ (fuel row : ℕ),
      rowLoop S P step cols fuel row
        = (axisGo S P step fuel row).flatMap
            (fun y => (axisGo S P step cols 0).map (fun x => (x, y))) := by
  intro fuel
  induction fuel with
  | zero => intro row; simp [rowLoop, axisGo]
  | succ n ih =>
    intro row
    rw [rowLoop, colLoop_eq_axisGo]
    by_cases hy : S ≤ (row : ℤ) * step + P
    · cases cols with
      | zero =>
        simp only [if_pos rfl]
        rw [rowLoop_zero_cols]
        simp only [axisGo, if_pos hy]
        simp [flatMap_map_nil]
      | succ c =>
        simp only [if_neg (Nat.succ_ne_zero c), Bool.false_or, hy, decide_True, if_pos]
        simp [axisGo, hy]
    · cases cols with
      | zero =>
        simp only [if_pos rfl]
        rw [rowLoop_zero_cols]
        simp only [axisGo, if_neg hy]
        simp [flatMap_map_nil]
      | succ c =>
        simp only [if_neg (Nat.succ_ne_zero c), Bool.false_or, hy, decide_False, if_false,
          Bool.false_eq_true]
        rw [ih]
        simp [axisGo, hy]

/-- Every coordinate emitted by an axis walk stays inside `[0, S - P]`. -/
theorem axisGo_bounds (S P step : ℤ) (hstep : 0 ≤ step) (hPS : P ≤ S) :
    ∀ (fuel i : ℕ), ∀ v ∈ axisGo S P step fuel i, 0 ≤ v ∧ v + P ≤ S := by
  intro fuel
  induction fuel with
  | zero => intro i v hv; simp [axisGo] at hv
  | succ n ih =>
    intro i v hv
    by_cases hx : S ≤ (i : ℤ) * step + P
    · simp [axisGo, hx] at hv
      subst hv
      exact ⟨by linarith, by linarith⟩
    · simp only [axisGo, if_neg hx, List.mem_cons] at hv
      rcases hv with rfl | hv
      · exact ⟨by positivity, by linarith⟩
      · exact ih (i + 1) v hv

/-- A walked candidate whose end reaches past-or-at the tile size is emitted
clamped to `S - P` and is the last coordinate of the axis walk. -/
theorem axisGo_clamp (S P step : ℤ) (fuel i : ℕ) (hex : S ≤ (i : ℤ) * step + P) :
    axisGo S P step (fuel + 1) i = [S - P] := by
  simp [axisGo, hex]

theorem pxOverlap_lt (P : ℕ) (o : ℚ) (hP : 1 ≤ P) (ho : 0 ≤ o) (ho1 : o < 1) :
    pxOverlap P o < P := by
  have hP0 : (0 : ℚ) < P := by exact_mod_cast Nat.lt_of_lt_of_le Nat.zero_lt_one hP
  have hlt : (P : ℚ) * o < P := by
    calc (P : ℚ) * o < P * 1 := mul_lt_mul_of_pos_left ho1 hP0
      _ = P := mul_one _
  have hfl : ⌊(P : ℚ) * o⌋ < (P : ℤ) := by
    rw [Int.floor_lt]
    exact_mod_cast hlt
  have hnn : 0 ≤ ⌊(P : ℚ) * o⌋ := Int.floor_nonneg.mpr (mul_nonneg (by positivity) ho)
  unfold pxOverlap
  omega

theorem stepSize_pos (P : ℕ) (o : ℚ) (hP : 1 ≤ P) (ho : 0 ≤ o) (ho1 : o < 1) :
    0 < stepSize P o := by
  have := pxOverlap_lt P o hP ho ho1
  unfold stepSize
  omega

theorem px_60_0 : pxOverlap 60 0 = 0 := by norm_num [pxOverlap]

theorem st_60_0 : stepSize 60 0 = 60 := by norm_num [stepSize, px_60_0]

theorem rc_100_60_0 : rowsCount 100 60 0 = 2 := by
  unfold rowsCount
  rw [st_60_0]
  apply toNat_eq_of_eq_cast
  push_cast
  norm_num [Int.ceil_eq_iff]

theorem px_60_half : pxOverlap 60 (1/2) = 30 := by
  unfold pxOverlap
  apply toNat_eq_of_eq_cast
  norm_num

theorem st_60_half : stepSize 60 (1/2) = 30 := by norm_num [stepSize, px_60_half]

/-- The concrete walk of the spec scenario: tile 100, patch 60, overlap 0. -/
theorem patchPositions_100_60_0 :
    patchPositions 100 60 0 = [(0, 0), (40, 0), (0, 40), (40, 40)] := by
  unfold patchPositions
  rw [st_60_0, rc_100_60_0]
  decide

theorem npSliceLen_patch (n a P : ℤ) (h0 : 0 ≤ a) (hb : a + P ≤ n) (hP : 0 ≤ P) :
    npSliceLen n a (a + P) = P := by
  unfold npSliceLen
  omega

/-! ### Claim theorems: patch subdivision and coordinate scaling -/

/-- Claim C1 fails on the code: at tile size 120, patch size 60 and overlap
fraction 1/2 the step is 30 and the loop bound is
`int(np.ceil((120 + 0.5)/30)) = 5` candidate steps per axis, while the
claimed `ceil(S/step) = ceil(120/30)` is 4. -/
theorem rowsCount_counterexample :
    stepSize 60 (1/2) = 30 ∧
    rowsCount 120 60 (1/2) = 5 ∧
    specStepsPerAxis 120 60 (1/2) = 4 ∧
    rowsCount 120 60 (1/2) ≠ specStepsPerAxis 120 60 (1/2) := by
  have h5 : rowsCount 120 60 (1/2) = 5 := by
    unfold rowsCount
    rw [st_60_half]
    apply toNat_eq_of_eq_cast
    push_cast
    norm_num [Int.ceil_eq_iff]
  have h4 : specStepsPerAxis 120 60 (1/2) = 4 := by
    unfold specStepsPerAxis
    rw [st_60_half]
    apply toNat_eq_of_eq_cast
    push_cast
    norm_num [Int.ceil_eq_iff]
  exact ⟨st_60_half, h5, h4, by rw [h5, h4]; decide⟩

/-- Claim C1 (amended): the grid step is `P - floor(P*o)`, and the number of
candidate steps walked per axis is `ceil((S + o)/step)`, which agrees with
the claimed `ceil(S/step)` whenever `o = 0` or `S` is not an exact multiple
of the step. -/
theorem rowsCount_eq_specSteps (S P : ℕ) (o : ℚ) (hP : 1 ≤ P) (ho : 0 ≤ o) (ho1 : o < 1)
    (h : o = 0 ∨ ¬ (stepSize P o ∣ (S : ℤ))) :
    stepSize P o = (P : ℤ) - ⌊(P : ℚ) * o⌋ ∧
    rowsCount S P o = specStepsPerAxis S P o := by
  constructor
  · have hnn : 0 ≤ ⌊(P : ℚ) * o⌋ := Int.floor_nonneg.mpr (mul_nonneg (by positivity) ho)
    unfold stepSize pxOverlap
    omega
  rcases h with rfl | hnd
  · simp [rowsCount, specStepsPerAxis]
  · have hst : 0 < stepSize P o := stepSize_pos P o hP ho ho1
    have hstQ : (0 : ℚ) < ((stepSize P o : ℤ) : ℚ) := by exact_mod_cast hst
    set st : ℤ := stepSize P o with hstdef
    set q : ℤ := ⌈(S : ℚ) / (st : ℚ)⌉ with hq
    have hle : (S : ℚ) / (st : ℚ) ≤ q := Int.le_ceil _
    have hSq : (S : ℚ) ≤ (q : ℚ) * (st : ℚ) := (div_le_iff₀ hstQ).mp hle
    have hSqZ : (S : ℤ) ≤ q * st := by exact_mod_cast hSq
    have hSlt : (S : ℤ) < q * st := by
      rcases lt_or_eq_of_le hSqZ with h | h
      · exact h
      · exact absurd ⟨q, by linarith⟩ hnd
    have hup : ⌈((S : ℚ) + o) / (st : ℚ)⌉ ≤ q := by
      rw [Int.ceil_le, div_le_iff₀ hstQ]
      have h1 : ((S : ℤ) : ℚ) + 1 ≤ ((q * st : ℤ) : ℚ) := by exact_mod_cast hSlt
      push_cast at h1 ⊢
      linarith
    have hlo : q ≤ ⌈((S : ℚ) + o) / (st : ℚ)⌉ := by
      apply Int.ceil_le_ceil
      gcongr
      linarith
    have hceq : ⌈((S : ℚ) + o) / (st : ℚ)⌉ = q := le_antisymm hup hlo
    unfold rowsCount specStepsPerAxis
    rw [hceq]

/-- Witness for C1's amended theorem at tile 100, patch 60, overlap 0. -/
theorem rowsCount_eq_specSteps_witness :
    stepSize 60 0 = (60 : ℤ) - ⌊((60 : ℕ) : ℚ) * 0⌋ ∧
    rowsCount 100 60 0 = specStepsPerAxis 100 60 0 :=
  rowsCount_eq_specSteps 100 60 0 (by norm_num) (by norm_num) (by norm_num) (Or.inl rfl)

/-- Claim C2: the subdivision loop factors into two independent axis walks
(row-major product); whenever a walked candidate coordinate plus the patch
size would exceed the tile size on an axis, the emitted coordinate is
clamped to exactly `S - P` and the walk on that axis ends with it; in the
concrete scenario (tile 100, patch 60, overlap 0) the walk visits steps `0`
and clamped `40` on each axis — exactly 2 patches per axis. -/
theorem patchPositions_clamp_stop (S P : ℕ) (o : ℚ) (hP : 1 ≤ P) (hPS : P ≤ S)
    (ho : 0 ≤ o) (ho1 : o < 1) (hnd : ¬ (stepSize P o ∣ (S : ℤ))) :
    (patchPositions S P o
        = (axisGo S P (stepSize P o) (rowsCount S P o) 0).flatMap
            (fun y => (axisGo S P (stepSize P o) (rowsCount S P o) 0).map
              (fun x => (x, y)))) ∧
    (∀ (fuel i : ℕ), (S : ℤ) < (i : ℤ) * stepSize P o + P →
        axisGo S P (stepSize P o) (fuel + 1) i = [(S : ℤ) - P]) ∧
    patchPositions 100 60 0 = [(0, 0), (40, 0), (0, 40), (40, 40)] :=
  ⟨rowLoop_eq_axisGo (S : ℤ) (P : ℤ) (stepSize P o) (rowsCount S P o) (rowsCount S P o) 0,
    fun fuel i hex => axisGo_clamp (S : ℤ) (P : ℤ) (stepSize P o) fuel i (le_of_lt hex),
    patchPositions_100_60_0⟩

/-- Witness for C2 at tile 100, patch 60, overlap 0 (100 is not a multiple
of the step 60). -/
theorem patchPositions_clamp_stop_witness :
    patchPositions 100 60 0 = [(0, 0), (40, 0), (0, 40), (40, 40)] :=
  (patchPositions_clamp_stop 100 60 0 (by norm_num) (by norm_num) (by norm_num) (by norm_num)
    (by rw [st_60_0]; decide)).2.2

/-- Claim C3: every patch position processed by the subdivision loop has
non-negative coordinates, its coordinate plus the patch size never exceeds
the tile size, and both numpy slices of the pixel/mask arrays have length
exactly `P` — every emitted patch is a full `P × P` region inside
`[0, S) × [0, S)`. -/
theorem patchPositions_within_tile (S P : ℕ) (o : ℚ) (hP : 1 ≤ P) (hPS : P ≤ S)
    (ho : 0 ≤ o) (ho1 : o < 1) :
    ∀ pos ∈ patchPositions S P o,
      0 ≤ pos.1 ∧ pos.1 + (P : ℤ) ≤ (S : ℤ) ∧ 0 ≤ pos.2 ∧ pos.2 + (P : ℤ) ≤ (S : ℤ) ∧
      npSliceLen (S : ℤ) pos.1 (pos.1 + (P : ℤ)) = (P : ℤ) ∧
      npSliceLen (S : ℤ) pos.2 (pos.2 + (P : ℤ)) = (P : ℤ) := by
  intro pos hmem
  rw [patchPositions, rowLoop_eq_axisGo] at hmem
  simp only [List.mem_flatMap, List.mem_map] at hmem
  obtain ⟨y, hy, x, hx, rfl⟩ := hmem
  have hstep : (0 : ℤ) ≤ stepSize P o := le_of_lt (stepSize_pos P o hP ho ho1)
  have hPS' : (P : ℤ) ≤ (S : ℤ) := by exact_mod_cast hPS
  have hP0 : (0 : ℤ) ≤ (P : ℤ) := by positivity
  have hb1 := axisGo_bounds (S : ℤ) (P : ℤ) (stepSize P o) hstep hPS' _ _ x hx
  have hb2 := axisGo_bounds (S : ℤ) (P : ℤ) (stepSize P o) hstep hPS' _ _ y hy
  exact ⟨hb1.1, hb1.2, hb2.1, hb2.2,
    npSliceLen_patch (S : ℤ) x (P : ℤ) hb1.1 hb1.2 hP0,
    npSliceLen_patch (S : ℤ) y (P : ℤ) hb2.1 hb2.2 hP0⟩

/-- Witness for C3 at the clamped position `(40, 40)` of the concrete
scenario. -/
theorem patchPositions_within_tile_witness :
    0 ≤ ((40 : ℤ), (40 : ℤ)).1 ∧
    ((40 : ℤ), (40 : ℤ)).1 + ((60 : ℕ) : ℤ) ≤ ((100 : ℕ) : ℤ) ∧
    0 ≤ ((40 : ℤ), (40 : ℤ)).2 ∧
    ((40 : ℤ), (40 : ℤ)).2 + ((60 : ℕ) : ℤ) ≤ ((100 : ℕ) : ℤ) ∧
    npSliceLen ((100 : ℕ) : ℤ) ((40 : ℤ), (40 : ℤ)).1
      (((40 : ℤ), (40 : ℤ)).1 + ((60 : ℕ) : ℤ)) = ((60 : ℕ) : ℤ) ∧
    npSliceLen ((100 : ℕ) : ℤ) ((40 : ℤ), (40 : ℤ)).2
      (((40 : ℤ), (40 : ℤ)).2 + ((60 : ℕ) : ℤ)) = ((60 : ℕ) : ℤ) :=
  patchPositions_within_tile 100 60 0 (by norm_num) (by norm_num) (by norm_num) (by norm_num)
    ((40 : ℤ), (40 : ℤ)) (by rw [patchPositions_100_60_0]; decide)

/-- Claim C9: the coordinate scaler multiplies a tile's `x`, `y` and `size`
by the level's downsample factor truncated to an integer, and for any
downsample factor `≥ 1` (hence positive truncated factor) dividing the
scaled values by the same truncated factor recovers the originals exactly
(the inputs are integers). -/
theorem scaleTile_roundtrip (t : TileDescriptor) (d : ℚ) (hd : 1 ≤ d) :
    scaleTile t (truncFactor d)
      = (t.x * truncFactor d, t.y * truncFactor d, t.size * truncFactor d) ∧
    0 < truncFactor d ∧
    (scaleTile t (truncFactor d)).1 / truncFactor d = t.x ∧
    (scaleTile t (truncFactor d)).2.1 / truncFactor d = t.y ∧
    (scaleTile t (truncFactor d)).2.2 / truncFactor d = t.size := by
  have h1 : (1 : ℤ) ≤ ⌊d⌋ := Int.le_floor.mpr (by exact_mod_cast hd)
  have hf : 0 < truncFactor d := by unfold truncFactor; omega
  exact ⟨rfl, hf, Nat.mul_div_cancel _ hf, Nat.mul_div_cancel _ hf, Nat.mul_div_cancel _ hf⟩

/-- Witness for C9 with tile `(3, 5, 7)` and downsample factor `9/2`
(truncated to 4). -/
theorem scaleTile_roundtrip_witness :
    scaleTile ⟨3, 5, 7, 2⟩ (truncFactor (9/2))
      = (3 * truncFactor (9/2), 5 * truncFactor (9/2), 7 * truncFactor (9/2)) ∧
    0 < truncFactor (9/2) ∧
    (scaleTile ⟨3, 5, 7, 2⟩ (truncFactor (9/2))).1 / truncFactor (9/2) = 3 ∧
    (scaleTile ⟨3, 5, 7, 2⟩ (truncFactor (9/2))).2.1 / truncFactor (9/2) = 5 ∧
    (scaleTile ⟨3, 5, 7, 2⟩ (truncFactor (9/2))).2.2 / truncFactor (9/2) = 7 :=
  scaleTile_roundtrip ⟨3, 5, 7, 2⟩ (9/2) (by norm_num)

/-! ### Lemmas about the grid tiler -/

/-- Running the code's tiler on the test mask with tile size 2 and minimum
coverage 3/5 accepts both cells of the (single) full row: the first from the
original mask (4/4), the second from the rectangle-drawn RGB image (8/12),
even though the second cell's true fraction is only 1/2. -/
theorem tilerEval (level : ℕ) :
    get_relevant_tiles bugMask 2 4 2 (3/5) level
      = [⟨0, 0, 2, level⟩, ⟨2, 0, 2, level⟩] := by
  have hcov1 : (3/5 : ℚ) ≤ cellCoverage bugMask 2 ⟨[], cvtGray2RGB bugMask, false⟩ 0 0 := by
    simp only [cellCoverage]
    rw [show countNonzeroGrayCell bugMask 2 0 0 = 4 from rfl]
    norm_num
  have hstep1 : tilerStep bugMask 2 4 2 (3/5) level ⟨[], cvtGray2RGB bugMask, false⟩ 0 0
      = ⟨[⟨0, 0, 2, level⟩], drawRectangle (cvtGray2RGB bugMask) 2 4 0 0 2 2, true⟩ := by
    unfold tilerStep
    rw [if_pos hcov1]
    rfl
  have hcov2 : (3/5 : ℚ) ≤ cellCoverage bugMask 2
      ⟨[⟨0, 0, 2, level⟩], drawRectangle (cvtGray2RGB bugMask) 2 4 0 0 2 2, true⟩ 0 1 := by
    simp only [cellCoverage]
    rw [show countNonzeroRGBCell (drawRectangle (cvtGray2RGB bugMask) 2 4 0 0 2 2) 2 0 1 = 8
      from rfl]
    norm_num
  have hstep2 : tilerStep bugMask 2 4 2 (3/5) level
      ⟨[⟨0, 0, 2, level⟩], drawRectangle (cvtGray2RGB bugMask) 2 4 0 0 2 2, true⟩ 0 1
      = ⟨[⟨0, 0, 2, level⟩, ⟨2, 0, 2, level⟩],
          drawRectangle (drawRectangle (cvtGray2RGB bugMask) 2 4 0 0 2 2) 2 4 2 0 4 2, true⟩ := by
    unfold tilerStep
    rw [if_pos hcov2]
    rfl
  rw [show get_relevant_tiles bugMask 2 4 2 (3/5) level
      = (tilerStep bugMask 2 4 2 (3/5) level
          (tilerStep bugMask 2 4 2 (3/5) level ⟨[], cvtGray2RGB bugMask, false⟩ 0 0) 0 1).tiles
      from rfl,
    hstep1, hstep2]

/-- The spec-modelled tiler on the same mask accepts only cell (0,0): cell
(0,1)'s fraction in the input mask is 1/2 < 3/5. -/
theorem tilerIntendedEval (level : ℕ) :
    get_relevant_tiles_intended bugMask 2 4 2 (3/5) level = [⟨0, 0, 2, level⟩] := by
  have h0 : (3/5 : ℚ) ≤ (countNonzeroGrayCell bugMask 2 0 0 : ℚ)
      / (((2 : ℕ) : ℚ) * ((2 : ℕ) : ℚ)) := by
    rw [show countNonzeroGrayCell bugMask 2 0 0 = 4 from rfl]
    norm_num
  have h1 : ¬ (3/5 : ℚ) ≤ (countNonzeroGrayCell bugMask 2 0 1 : ℚ)
      / (((2 : ℕ) : ℚ) * ((2 : ℕ) : ℚ)) := by
    rw [show countNonzeroGrayCell bugMask 2 0 1 = 2 from rfl]
    norm_num
  unfold get_relevant_tiles_intended
  rw [show ((2 : ℕ) / 2) = 1 from rfl, show ((4 : ℕ) / 2) = 2 from rfl,
    show List.range 1 = [0] from rfl, show List.range 2 = [0, 1] from rfl]
  simp only [List.flatMap_cons, List.flatMap_nil, List.filterMap_cons, List.append_nil]
  rw [if_pos h0, if_neg h1]
  rfl

/-! ### Claim theorems: grid tiler -/

/-- Claim C4 describes the intended grid tiler, but the code diverges: on
the 2×4 mask whose pixel column 2 is zero, cell (0,1) has nonzero-pixel
fraction 1/2, below the minimum coverage 3/5, yet the code retains it —
after the first accepted cell the `tissue_mask` name is rebound to the RGB
diagnostic image, so cell (0,1)'s coverage is read from the drawn image
(8/12 ≥ 3/5).  The tiler modelled from the spec returns only the cell at
(0,0). -/
theorem get_relevant_tiles_failing_input :
    get_relevant_tiles bugMask 2 4 2 (3/5) 7 = [⟨0, 0, 2, 7⟩, ⟨2, 0, 2, 7⟩] ∧
    get_relevant_tiles_intended bugMask 2 4 2 (3/5) 7 = [⟨0, 0, 2, 7⟩] ∧
    (countNonzeroGrayCell bugMask 2 0 1 : ℚ) / (2 * 2) < 3/5 :=
  ⟨tilerEval 7, tilerIntendedEval 7, by
    rw [show countNonzeroGrayCell bugMask 2 0 1 = 2 from rfl]
    norm_num⟩

/-- Claim C5 fails on the code: the diagnostic rectangle drawing is
load-bearing.  `tissue_mask = cv2.rectangle(colored, ...)` rebinds the mask
variable to the drawn RGB copy, so every cell examined after the first
acceptance has its coverage computed from the image with rectangles, and
the retained tile set differs from the one computed from the original
mask. -/
theorem get_relevant_tiles_drawing_load_bearing :
    get_relevant_tiles bugMask 2 4 2 (3/5) 3
      ≠ get_relevant_tiles_intended bugMask 2 4 2 (3/5) 3 ∧
    get_relevant_tiles bugMask 2 4 2 (3/5) 3 = [⟨0, 0, 2, 3⟩, ⟨2, 0, 2, 3⟩] ∧
    get_relevant_tiles_intended bugMask 2 4 2 (3/5) 3 = [⟨0, 0, 2, 3⟩] := by
  refine ⟨?_, tilerEval 3, tilerIntendedEval 3⟩
  rw [tilerEval 3, tilerIntendedEval 3]
  decide

/-! ### Lemmas about the label classifier -/

theorem countNonzeroMask_zero (h w : ℕ) : countNonzeroMask (fun _ _ => false) h w = 0 := by
  simp [countNonzeroMask]

theorem maskFraction_zero (h w : ℕ) : maskFraction (fun _ _ => false) h w = 0 := by
  simp [maskFraction, countNonzeroMask_zero]

/-- A rule whose coded comparison does not hold and whose operator is not
`"<="` lets the loop continue with the remaining rules. -/
theorem checkRules_cons_skip (l : String) (r : LabelRule)
    (rest : List (String × LabelRule)) (p : ℚ)
    (hm : ruleMatches r p = false) (hne : r.type ≠ "<=") :
    checkRules ((l, r) :: rest) p = checkRules rest p := by
  by_cases h1 : r.type = "=="
  · have ht : ¬ r.threshold = p := by
      intro hc
      simp [ruleMatches, h1, hc] at hm
    simp [checkRules, h1, ht]
  · by_cases h2 : r.type = ">="
    · have ht : ¬ r.threshold ≥ p := by
        intro hc
        simp [ruleMatches, h1, h2, hc] at hm
      simp [checkRules, h1, h2, ht]
    · simp [checkRules, h1, h2, hne]

/-- On rule lists free of the `"<="` operator, the classifier loop returns
the first rule (in order) whose coded comparison holds. -/
theorem checkRules_eq_find (rules : List (String × LabelRule)) (p : ℚ)
    (hno : ∀ lr ∈ rules, lr.2.type ≠ "<=") :
    checkRules rules p
      = .ok ((rules.find? (fun lr => ruleMatches lr.2 p)).map Prod.fst) := by
  induction rules with
  | nil => simp [checkRules]
  | cons hd tl ih =>
    obtain ⟨l, r⟩ := hd
    have hhd : r.type ≠ "<=" := hno (l, r) (List.mem_cons_self _ _)
    have htl : ∀ lr ∈ tl, lr.2.type ≠ "<=" := fun lr hm => hno lr (List.mem_cons_of_mem _ hm)
    by_cases h1 : r.type = "=="
    · by_cases ht : r.threshold = p
      · have hm : ruleMatches r p = true := by simp [ruleMatches, h1, ht]
        simp [checkRules, h1, ht, List.find?_cons_of_pos, hm]
      · have hm : ruleMatches r p = false := by simp [ruleMatches, h1, ht]
        simp [checkRules, h1, ht, List.find?_cons_of_neg, hm, ih htl]
    · by_cases h2 : r.type = ">="
      · by_cases ht : r.threshold ≥ p
        · have hm : ruleMatches r p = true := by simp [ruleMatches, h1, h2, ht]
          simp [checkRules, h1, h2, ht, List.find?_cons_of_pos, hm]
        · have hm : ruleMatches r p = false := by simp [ruleMatches, h1, h2, ht]
          simp [checkRules, h1, h2, ht, List.find?_cons_of_neg, hm, ih htl]
      · have hm : ruleMatches r p = false := by simp [ruleMatches, h1, h2, hhd]
        simp [checkRules, h1, h2, hhd, List.find?_cons_of_neg, hm, ih htl]

/-! ### Claim theorems: label classifier -/

/-- Claim C6: in the label classifier, a reached rule `{">=", t}` matches iff
`t ≥ p`, where `p` is the patch mask's annotated-pixel fraction — the
threshold is the left operand of the comparison; in particular an all-zero
mask has `p = 0` and a rule `{">=", 1/2}` matches it. -/
theorem check_for_label_ge_direction (mask : ℕ → ℕ → Bool) (h w : ℕ)
    (l : String) (t : ℚ) (rest : List (String × LabelRule)) :
    (t ≥ maskFraction mask h w →
        check_for_label ((l, ⟨">=", t⟩) :: rest) mask h w = .ok (some l)) ∧
    (¬ t ≥ maskFraction mask h w →
        check_for_label ((l, ⟨">=", t⟩) :: rest) mask h w
          = checkRules rest (maskFraction mask h w)) ∧
    maskFraction (fun _ _ => false) 8 8 = 0 ∧
    check_for_label [("pos", ⟨">=", 1/2⟩)] (fun _ _ => false) 8 8 = .ok (some "pos") := by
  refine ⟨fun hge => by simp [check_for_label, checkRules, hge],
    fun hlt => by simp [check_for_label, checkRules, hlt],
    maskFraction_zero 8 8, ?_⟩
  have hge : (1/2 : ℚ) ≥ 0 := by norm_num
  simp [check_for_label, checkRules, maskFraction_zero, hge]

/-- Witness for C6 at a concrete input. -/
theorem check_for_label_ge_direction_witness :
    check_for_label [("pos", ⟨">=", (1:ℚ)/2⟩)] (fun _ _ => false) 8 8 = .ok (some "pos") := by
  refine (check_for_label_ge_direction (fun _ _ => false) 8 8 "pos" (1/2) []).1 ?_
  rw [maskFraction_zero]; norm_num

/-- Claim C7 fails on the code: with the single rule `("a", {"<=", 1/2})` and
an all-zero patch mask (fraction `0`, so the intended comparison
`p ≤ 1/2` holds), the classifier raises `TypeError` instead of returning the
first matching label — or no label. -/
theorem check_for_label_le_rule_counterexample :
    check_for_label [("a", ⟨"<=", 1/2⟩)] (fun _ _ => false) 2 2 = .error .typeError ∧
    check_for_label [("a", ⟨"<=", 1/2⟩)] (fun _ _ => false) 2 2 ≠ .ok (some "a") ∧
    check_for_label [("a", ⟨"<=", 1/2⟩)] (fun _ _ => false) 2 2 ≠ .ok none ∧
    maskFraction (fun _ _ => false) 2 2 ≤ 1/2 := by
  refine ⟨by simp [check_for_label, checkRules], by simp [check_for_label, checkRules],
    by simp [check_for_label, checkRules], ?_⟩
  rw [maskFraction_zero]; norm_num

/-- Claim C7 (amended): provided no rule uses the `"<="` operator (whose
branch raises `TypeError` as soon as it is reached), the classifier returns
the label of the first rule, in the rules' iteration order, whose coded
comparison holds, and no label when none matches; rule order decides the
winner even with identical thresholds (`[a, b]` yields `"a"` where the
reordered `[b, a]` yields `"b"`). -/
theorem check_for_label_first_match (label_dict : List (String × LabelRule))
    (mask : ℕ → ℕ → Bool) (h w : ℕ)
    (hno : ∀ lr ∈ label_dict, lr.2.type ≠ "<=") :
    check_for_label label_dict mask h w
      = .ok ((label_dict.find?
          (fun lr => ruleMatches lr.2 (maskFraction mask h w))).map Prod.fst) ∧
    checkRules [("a", ⟨">=", 1⟩), ("b", ⟨">=", 1⟩)] 0 = .ok (some "a") ∧
    checkRules [("b", ⟨">=", 1⟩), ("a", ⟨">=", 1⟩)] 0 = .ok (some "b") := by
  have hone : (1 : ℚ) ≥ 0 := by norm_num
  exact ⟨checkRules_eq_find label_dict (maskFraction mask h w) hno,
    by simp [checkRules, hone], by simp [checkRules, hone]⟩

/-- Witness for C7's amended theorem at a concrete input. -/
theorem check_for_label_first_match_witness :
    check_for_label [("neg", ⟨">=", (1:ℚ)⟩)] (fun _ _ => false) 4 4 = .ok (some "neg") := by
  have hfind := (check_for_label_first_match [("neg", ⟨">=", (1:ℚ)⟩)] (fun _ _ => false) 4 4
    (by simp)).1
  rw [hfind]
  have hm : ruleMatches ⟨">=", (1:ℚ)⟩ (maskFraction (fun _ _ => false) 4 4) = true := by
    rw [maskFraction_zero]
    simp [ruleMatches]
  simp [List.find?_cons_of_pos, hm]

/-- Claim C8: the `"<="` branch of the classifier indexes the coverage
fraction (`label_percentage[label]["threshold"]`) instead of looking up the
rule collection, so a reached `"<="` rule raises `TypeError` — for every
threshold `t`, hence independently of whether the intended comparison
`p ≤ t` holds — instead of evaluating the intended comparison. -/
theorem checkRules_le_branch_raises (pre rest : List (String × LabelRule))
    (l : String) (t p : ℚ)
    (hpre : ∀ lr ∈ pre, ruleMatches lr.2 p = false ∧ lr.2.type ≠ "<=") :
    checkRules (pre ++ (l, ⟨"<=", t⟩) :: rest) p = .error .typeError := by
  induction pre with
  | nil => simp [checkRules]
  | cons hd tl ih =>
    obtain ⟨l2, r⟩ := hd
    have hh := hpre (l2, r) (List.mem_cons_self _ _)
    have htl : ∀ lr ∈ tl, ruleMatches lr.2 p = false ∧ lr.2.type ≠ "<=" :=
      fun lr hm => hpre lr (List.mem_cons_of_mem _ hm)
    rw [List.cons_append, checkRules_cons_skip l2 r _ p hh.1 hh.2]
    exact ih htl

/-- Witness for C8 at a concrete input. -/
theorem checkRules_le_branch_raises_witness :
    checkRules ([] ++ ("a", ⟨"<=", (1:ℚ)⟩) :: []) 0 = .error .typeError :=
  checkRules_le_branch_raises [] [] "a" 1 0 (by simp)

/-- Claim C10: a rule whose comparison operator is none of `"=="`, `">="`,
`"<="` is silently skipped by the classifier (it never matches and raises no
error), and when every rule is skipped or its coded comparison fails the
classifier returns no label rather than failing. -/
theorem checkRules_unknown_skipped :
    (∀ (l : String) (r : LabelRule) (rest : List (String × LabelRule)) (p : ℚ),
        r.type ≠ "==" → r.type ≠ ">=" → r.type ≠ "<=" →
        checkRules ((l, r) :: rest) p = checkRules rest p) ∧
    (∀ (rules : List (String × LabelRule)) (p : ℚ),
        (∀ lr ∈ rules,
            (lr.2.type ≠ "==" ∧ lr.2.type ≠ ">=" ∧ lr.2.type ≠ "<=") ∨
            (lr.2.type = "==" ∧ lr.2.threshold ≠ p) ∨
            (lr.2.type = ">=" ∧ ¬ lr.2.threshold ≥ p)) →
        checkRules rules p = .ok none) := by
  constructor
  · intro l r rest p h1 h2 h3
    exact checkRules_cons_skip l r rest p (by simp [ruleMatches, h1, h2]) h3
  · intro rules p hall
    induction rules with
    | nil => simp [checkRules]
    | cons hd tl ih =>
      obtain ⟨l, r⟩ := hd
      have hh := hall (l, r) (List.mem_cons_self _ _)
      dsimp only at hh
      have htl := fun lr hm => hall lr (List.mem_cons_of_mem _ hm)
      have hskip : ruleMatches r p = false ∧ r.type ≠ "<=" := by
        rcases hh with ⟨h1, h2, h3⟩ | ⟨h1, h2⟩ | ⟨h1, h2⟩
        · exact ⟨by simp [ruleMatches, h1, h2], h3⟩
        · refine ⟨by simp [ruleMatches, h1, h2], ?_⟩
          rw [h1]; intro hc; exact absurd hc (by decide)
        · refine ⟨?_, ?_⟩
          · have hne : r.type ≠ "==" := by rw [h1]; intro hc; exact absurd hc (by decide)
            simp [ruleMatches, hne, h1, h2]
          · rw [h1]; intro hc; exact absurd hc (by decide)
      rw [checkRules_cons_skip l r tl p hskip.1 hskip.2]
      exact ih htl

/-- Witness for C10 at concrete inputs. -/
theorem checkRules_unknown_skipped_witness :
    checkRules [("a", ⟨"!=", (1:ℚ)⟩)] 0 = checkRules [] 0 ∧
    checkRules [("a", ⟨"!=", (1:ℚ)⟩), ("b", ⟨">=", -1⟩)] 0 = .ok none :=
  ⟨checkRules_unknown_skipped.1 "a" ⟨"!=", 1⟩ [] 0 (by decide) (by decide) (by decide),
    checkRules_unknown_skipped.2 [("a", ⟨"!=", 1⟩), ("b", ⟨">=", -1⟩)] 0 (by
      intro lr hmem
      rcases List.mem_cons.mp hmem with heq | hmem2
      · subst heq
        exact Or.inl ⟨by decide, by decide, by decide⟩
      · have heq := List.mem_singleton.mp hmem2
        subst heq
        refine Or.inr (Or.inr ⟨rfl, ?_⟩)
        show ¬ (-1 : ℚ) ≥ 0
        norm_num)⟩

end WSI
